import Mathlib

/-!
Verification of the recursive temp-directory cleaning engine
(`src/main.rs` of wintempclean).

The filesystem and the OS responses a run observes are modelled as a tree
in which every entry carries the outcomes of the filesystem calls the
walker performs on it: whether `fs::metadata` fails, the `meta.len()`
size, whether `meta.created()` fails, the value of
`created.elapsed()` (`none` models a `SystemTimeError`, i.e. a creation
timestamp in the future), whether the removal call fails, and — for a
directory — whether `fs::read_dir` on it fails, with its entries.
Durations are modelled as natural numbers.

`remove_dir_contents` below is a direct transcription of the function of
the same name in `src/main.rs` (lines 142-205): it returns the `Result<Stats>`
(`Option Stats`, `none` = `Err`), instrumented with the list of paths the
run actually deletes from disk (empty under dry-run) and the number of
loop iterations performed across the traversal (entries visited).

A directory listing either fails wholesale or yields all its entries;
the per-item iterator error of line 150 (`let entry = entry?`), which no
claim concerns, is not a separate point of the environment model.
-/

namespace WinTempClean

/-- Outcomes of the per-entry filesystem calls, as observed by one run. -/
structure Attrs where
  /-- `fs::metadata(entry.path())` fails (main.rs line 152). -/
  metaFails : Bool
  /-- `meta.len()` (line 166). -/
  size : Nat
  /-- `meta.created()` fails (line 168, the `?`). -/
  createdFails : Bool
  /-- `created.elapsed()`: `some e` is a duration, `none` a `SystemTimeError`
  (creation time in the future), defaulted to `0` by the code (lines 168-172). -/
  elapsed : Option Nat
  /-- `fs::remove_file` / `fs::remove_dir` on this entry fails (lines 216-224). -/
  removeFails : Bool
deriving Repr, DecidableEq

mutual
/-- One filesystem entry: a file or a directory (`meta.is_dir()`, line 177). -/
inductive FsTree where
  | file (name : String) (a : Attrs)
  | dir (name : String) (a : Attrs) (listing : Listing)
deriving Repr, DecidableEq

/-- The outcome of `fs::read_dir` on a directory (line 143). -/
inductive Listing where
  | fail
  | ok (es : EntryList)
deriving Repr, DecidableEq

/-- The entries of a directory, in iteration order. -/
inductive EntryList where
  | nil
  | cons (e : FsTree) (rest : EntryList)
deriving Repr, DecidableEq
end

/-- The fields of `Config` the walker consumes (main.rs lines 9-13);
`verbose` is presentation-only and omitted. `since = 0` models the absent
`--created-before` flag (line 94). -/
structure Config where
  dry_run : Bool
  since : Nat
deriving Repr, DecidableEq

/-- Rust struct `Stats` (main.rs lines 15-19). -/
structure Stats where
  errors_total : Nat
  removed_bytes : Nat
  removed_count : Nat
deriving Repr, DecidableEq

/-- Constructor `Stats::new` (main.rs lines 22-28). -/
def Stats.new : Stats :=
  { errors_total := 0, removed_bytes := 0, removed_count := 0 }

/-- Merge `Stats::add` (main.rs lines 30-34): field-wise sum, `self += stats`. -/
def Stats.add (self stats : Stats) : Stats :=
  { errors_total := self.errors_total + stats.errors_total
    removed_bytes := self.removed_bytes + stats.removed_bytes
    removed_count := self.removed_count + stats.removed_count }

/-- Remover `remove_entry` (main.rs lines 207-228): `true` = `Ok(())`. Under dry-run
it always succeeds without touching the filesystem; otherwise it issues the
removal call, whose outcome is the entry's `removeFails` flag. -/
def remove_entry (config : Config) (removeFails : Bool) : Bool :=
  if config.dry_run then true else !removeFails

/-- Instrumented result of one `remove_dir_contents` call: the returned
`Result<Stats>` (`none` = `Err`), the paths actually deleted from disk
during the call (deletions happen even when the call itself ends in `Err`),
and how many entries the call visited (loop iterations, subtrees included). -/
structure RunResult where
  res : Option Stats
  deleted : List (List String)
  visited : Nat
deriving Repr, DecidableEq

/-- Effect of one iteration of the entry loop on the enclosing call:
`fatal` = the iteration makes the whole call return `Err` (line 168's `?`);
`abort` = the iteration early-returns `Ok` with the accumulated stats
(lines 184-189); `next` = the loop continues, having contributed `contrib`
to the accumulator. -/
inductive StepRes where
  | fatal (deleted : List (List String)) (visited : Nat)
  | abort (stats : Stats) (deleted : List (List String)) (visited : Nat)
  | next (contrib : Stats) (deleted : List (List String)) (visited : Nat)
deriving Repr, DecidableEq

mutual
/-- Walker `remove_dir_contents` (main.rs lines 142-205), taking the `fs::read_dir`
outcome for the directory at `path`. A failed listing is the fatal-for-this-
call condition of line 144. -/
def remove_dir_contents (config : Config) (listing : Listing)
    (skip_date_check : Bool) : RunResult :=
  match listing with
  | .fail => { res := none, deleted := [], visited := 0 }
  | .ok es => entry_loop config skip_date_check es

/-- The `for entry in entries` loop of `remove_dir_contents`
(main.rs lines 149-202), starting from `Stats::new`. -/
def entry_loop (config : Config) (skip_date_check : Bool) :
    EntryList → RunResult
  | .nil => { res := some Stats.new, deleted := [], visited := 0 }
  | .cons e rest =>
    match entry_step config skip_date_check e with
    | .fatal d v => { res := none, deleted := d, visited := v }
    | .abort s d v => { res := some s, deleted := d, visited := v }
    | .next c d v =>
      let r := entry_loop config skip_date_check rest
      { res := r.res.map (fun s => Stats.add c s)
        deleted := d ++ r.deleted
        visited := v + r.visited }

/-- One iteration of the entry loop (main.rs lines 150-201):
metadata read (non-fatal on failure, lines 156-163), `meta.created()?`
(fatal on failure, line 168), `elapsed()` defaulted to zero (lines 168-172),
the eligibility test (line 175), recursion into an eligible directory with
`skip_date_check = true` (lines 177-191, early return on a failed recursive
call), and the removal (lines 194-200). -/
def entry_step (config : Config) (skip_date_check : Bool) : FsTree → StepRes
  | .file name a =>
    if a.metaFails then
      .next { errors_total := 1, removed_bytes := 0, removed_count := 0 } [] 1
    else if a.createdFails then
      .fatal [] 1
    else if skip_date_check = true ∨ config.since ≤ a.elapsed.getD 0 then
      if remove_entry config a.removeFails then
        .next { errors_total := 0, removed_bytes := a.size, removed_count := 1 }
          (if config.dry_run then [] else [[name]]) 1
      else
        .next { errors_total := 1, removed_bytes := 0, removed_count := 0 } [] 1
    else
      .next { errors_total := 0, removed_bytes := 0, removed_count := 0 } [] 1
  | .dir name a listing =>
    if a.metaFails then
      .next { errors_total := 1, removed_bytes := 0, removed_count := 0 } [] 1
    else if a.createdFails then
      .fatal [] 1
    else if skip_date_check = true ∨ config.since ≤ a.elapsed.getD 0 then
      let sub := remove_dir_contents config listing true
      let subDel := sub.deleted.map (fun p => name :: p)
      match sub.res with
      | none =>
        .abort { errors_total := 1, removed_bytes := 0, removed_count := 0 }
          subDel (sub.visited + 1)
      | some subStats =>
        if remove_entry config a.removeFails then
          .next (Stats.add subStats
              { errors_total := 0, removed_bytes := a.size, removed_count := 1 })
            (subDel ++ if config.dry_run then [] else [[name]])
            (sub.visited + 1)
        else
          .next (Stats.add subStats
              { errors_total := 1, removed_bytes := 0, removed_count := 0 })
            subDel (sub.visited + 1)
    else
      .next { errors_total := 0, removed_bytes := 0, removed_count := 0 } [] 1
end

/-! ### Helper functions over the tree model (statement vocabulary only) -/

/-- An entry's name. -/
def FsTree.name : FsTree → String
  | .file n _ => n
  | .dir n _ _ => n

/-- An entry's attributes. -/
def FsTree.attrs : FsTree → Attrs
  | .file _ a => a
  | .dir _ a _ => a

/-- Concatenation of entry lists. -/
def EntryList.append : EntryList → EntryList → EntryList
  | .nil, ys => ys
  | .cons x xs, ys => .cons x (xs.append ys)

/-- Number of entries in a list. -/
def EntryList.length : EntryList → Nat
  | .nil => 0
  | .cons _ rest => rest.length + 1

/-- Sum of the entries' sizes. -/
def EntryList.sizes : EntryList → Nat
  | .nil => 0
  | .cons e rest => e.attrs.size + rest.sizes

/-- The entries' names, as one-component paths, in order. -/
def EntryList.paths : EntryList → List (List String)
  | .nil => []
  | .cons e rest => [e.name] :: rest.paths

/-- Every entry of the list satisfies `p`. -/
def EntryList.allP (p : FsTree → Bool) : EntryList → Bool
  | .nil => true
  | .cons e rest => p e && rest.allP p

/-- A file on which every filesystem call the walker makes succeeds and
whose age passes the cutoff of `config`. -/
def isHealthyFile (config : Config) : FsTree → Bool
  | .file _ a =>
    !a.metaFails && !a.createdFails && !a.removeFails
      && decide (config.since ≤ a.elapsed.getD 0)
  | .dir _ _ _ => false

/-- A file on which every filesystem call the walker makes succeeds;
nothing is assumed about its creation time. -/
def isIntactFile : FsTree → Bool
  | .file _ a => !a.metaFails && !a.createdFails && !a.removeFails
  | .dir _ _ _ => false

mutual
/-- No removal call issued anywhere in this subtree would fail. -/
def FsTree.allRemoveOk : FsTree → Bool
  | .file _ a => !a.removeFails
  | .dir _ a l => !a.removeFails && l.allRemoveOk

/-- No removal call issued anywhere under this listing would fail. -/
def Listing.allRemoveOk : Listing → Bool
  | .fail => true
  | .ok es => es.allRemoveOk

/-- No removal call issued anywhere in these subtrees would fail. -/
def EntryList.allRemoveOk : EntryList → Bool
  | .nil => true
  | .cons e rest => e.allRemoveOk && rest.allRemoveOk
end

/-- The claimed bound of one removal per visited entry, per loop-step kind. -/
def StepRes.countBound : StepRes → Prop
  | .fatal _ _ => True
  | .abort s _ v => s.removed_count ≤ v
  | .next c _ v => c.removed_count ≤ v

/-- A run result with its on-disk deletions forgotten (what a dry run of the
same tree is claimed to produce). -/
def RunResult.eraseDeleted (r : RunResult) : RunResult :=
  { res := r.res, deleted := [], visited := r.visited }

/-- A step result with its on-disk deletions forgotten. -/
def StepRes.eraseDeleted : StepRes → StepRes
  | .fatal _ v => .fatal [] v
  | .abort s _ v => .abort s [] v
  | .next c _ v => .next c [] v

/-! ### Basic lemmas -/

theorem Stats.add_new_left (s : Stats) : Stats.add Stats.new s = s := by
  simp [Stats.add, Stats.new]

theorem Stats.add_new_right (s : Stats) : Stats.add s Stats.new = s := by
  simp [Stats.add, Stats.new]

/-- Induction on an entry list alone (the entries are not descended into). -/
theorem EntryList.induct (motive : EntryList → Prop) (hnil : motive .nil)
    (hcons : ∀ e rest, motive rest → motive (.cons e rest)) :
    ∀ l, motive l
  | .nil => hnil
  | .cons e rest => hcons e rest (EntryList.induct motive hnil hcons rest)

theorem entry_loop_cons_next (config : Config) (skip : Bool) (e : FsTree)
    (rest : EntryList) (c : Stats) (d : List (List String)) (v : Nat)
    (h : entry_step config skip e = .next c d v) :
    entry_loop config skip (.cons e rest)
      = { res := (entry_loop config skip rest).res.map (fun s => Stats.add c s)
          deleted := d ++ (entry_loop config skip rest).deleted
          visited := v + (entry_loop config skip rest).visited } := by
  simp [entry_loop, h]

theorem entry_loop_cons_fatal (config : Config) (skip : Bool) (e : FsTree)
    (rest : EntryList) (d : List (List String)) (v : Nat)
    (h : entry_step config skip e = .fatal d v) :
    entry_loop config skip (.cons e rest)
      = { res := none, deleted := d, visited := v } := by
  simp [entry_loop, h]

theorem entry_loop_cons_abort (config : Config) (skip : Bool) (e : FsTree)
    (rest : EntryList) (s : Stats) (d : List (List String)) (v : Nat)
    (h : entry_step config skip e = .abort s d v) :
    entry_loop config skip (.cons e rest)
      = { res := some s, deleted := d, visited := v } := by
  simp [entry_loop, h]

/-- An entry whose metadata read fails contributes one error and nothing
else, and the loop continues. -/
theorem entry_step_metaFails (config : Config) (skip : Bool) (e : FsTree)
    (hm : e.attrs.metaFails = true) :
    entry_step config skip e
      = .next { errors_total := 1, removed_bytes := 0, removed_count := 0 } [] 1 := by
  cases e <;> simp [FsTree.attrs] at hm <;> simp [entry_step, hm]

/-- A file on which all calls succeed and whose age passes (or whose date
check is skipped) is removed: contribution one entry, its size in bytes. -/
theorem entry_step_file_removed (config : Config) (skip : Bool) (name : String)
    (a : Attrs) (hdry : config.dry_run = false) (hm : a.metaFails = false)
    (hc : a.createdFails = false) (hr : a.removeFails = false)
    (helig : skip = true ∨ config.since ≤ a.elapsed.getD 0) :
    entry_step config skip (.file name a)
      = .next { errors_total := 0, removed_bytes := a.size, removed_count := 1 }
          [[name]] 1 := by
  simp only [entry_step, hm, hc, Bool.false_eq_true, if_false]
  rw [if_pos helig]
  simp [remove_entry, hdry, hr]

/-- Prefix of files that are all removed: the loop on `pre.append tail`
contributes `pre`'s sizes and count in front of the loop on `tail`. -/
theorem entry_loop_healthy_append (config : Config) (skip : Bool)
    (hdry : config.dry_run = false) :
    ∀ pre tail : EntryList, pre.allP (isHealthyFile config) = true →
      entry_loop config skip (pre.append tail)
        = { res := (entry_loop config skip tail).res.map
              (fun s => Stats.add { errors_total := 0, removed_bytes := pre.sizes,
                                    removed_count := pre.length } s)
            deleted := pre.paths ++ (entry_loop config skip tail).deleted
            visited := pre.length + (entry_loop config skip tail).visited }
  | .nil, tail, _ => by
    have hid : (entry_loop config skip tail).res.map
        (fun s => Stats.add { errors_total := 0, removed_bytes := 0,
                              removed_count := 0 } s)
        = (entry_loop config skip tail).res := by
      cases (entry_loop config skip tail).res with
      | none => rfl
      | some s => exact congrArg some (Stats.add_new_left s)
    simp only [EntryList.append, EntryList.sizes, EntryList.length,
      EntryList.paths, hid, List.nil_append, Nat.zero_add]
  | .cons e pre, tail, h => by
    have hsplit : isHealthyFile config e = true
        ∧ pre.allP (isHealthyFile config) = true := by
      simpa [EntryList.allP] using h
    have ih := entry_loop_healthy_append config skip hdry pre tail hsplit.2
    match e, hsplit.1 with
    | .file name a, he =>
      simp only [isHealthyFile, Bool.and_eq_true, Bool.not_eq_true',
        decide_eq_true_eq] at he
      have hstep := entry_step_file_removed config skip name a hdry
        he.1.1.1 he.1.1.2 he.1.2 (Or.inr he.2)
      rw [EntryList.append, entry_loop_cons_next config skip _ _ _ _ _ hstep, ih]
      cases hres : (entry_loop config skip tail).res <;>
        simp [EntryList.sizes, EntryList.length, EntryList.paths, FsTree.attrs,
          FsTree.name, hres, Stats.add] <;> omega

/-- Merging the empty `Stats` into an optional result changes nothing. -/
theorem res_map_add_zero (o : Option Stats) :
    o.map (fun s => Stats.add { errors_total := 0, removed_bytes := 0,
                                removed_count := 0 } s) = o := by
  cases o with
  | none => rfl
  | some s => exact congrArg some (Stats.add_new_left s)

/-- An eligible file's step: the removal is attempted; on success the file's
size and one count are contributed (and the path deleted unless dry-run), on
failure one error. -/
theorem entry_step_file_eligible (config : Config) (skip : Bool)
    (name : String) (a : Attrs) (hm : a.metaFails = false)
    (hc : a.createdFails = false)
    (helig : skip = true ∨ config.since ≤ a.elapsed.getD 0) :
    entry_step config skip (.file name a)
      = if remove_entry config a.removeFails then
          .next { errors_total := 0, removed_bytes := a.size, removed_count := 1 }
            (if config.dry_run then [] else [[name]]) 1
        else
          .next { errors_total := 1, removed_bytes := 0, removed_count := 0 } [] 1 := by
  simp only [entry_step, hm, hc, Bool.false_eq_true, if_false]
  rw [if_pos helig]

/-- An eligible directory's step when the recursive call returns `Ok`:
the child stats are merged, then the (now empty) directory's removal is
attempted. -/
theorem entry_step_dir_ok (config : Config) (skip : Bool) (name : String)
    (a : Attrs) (l : Listing) (subStats : Stats) (hm : a.metaFails = false)
    (hc : a.createdFails = false)
    (helig : skip = true ∨ config.since ≤ a.elapsed.getD 0)
    (hsub : (remove_dir_contents config l true).res = some subStats) :
    entry_step config skip (.dir name a l)
      = if remove_entry config a.removeFails then
          .next (Stats.add subStats
              { errors_total := 0, removed_bytes := a.size, removed_count := 1 })
            ((remove_dir_contents config l true).deleted.map (fun p => name :: p)
              ++ if config.dry_run then [] else [[name]])
            ((remove_dir_contents config l true).visited + 1)
        else
          .next (Stats.add subStats
              { errors_total := 1, removed_bytes := 0, removed_count := 0 })
            ((remove_dir_contents config l true).deleted.map (fun p => name :: p))
            ((remove_dir_contents config l true).visited + 1) := by
  simp only [entry_step, hm, hc, Bool.false_eq_true, if_false]
  rw [if_pos helig]
  simp only [hsub]

/-- An eligible directory's step when the recursive call returns `Err`:
one error, and the loop is told to stop with the stats so far. -/
theorem entry_step_dir_err (config : Config) (skip : Bool) (name : String)
    (a : Attrs) (l : Listing) (hm : a.metaFails = false)
    (hc : a.createdFails = false)
    (helig : skip = true ∨ config.since ≤ a.elapsed.getD 0)
    (hsub : (remove_dir_contents config l true).res = none) :
    entry_step config skip (.dir name a l)
      = .abort { errors_total := 1, removed_bytes := 0, removed_count := 0 }
          ((remove_dir_contents config l true).deleted.map (fun p => name :: p))
          ((remove_dir_contents config l true).visited + 1) := by
  simp only [entry_step, hm, hc, Bool.false_eq_true, if_false]
  rw [if_pos helig]
  simp only [hsub]

/-- A not-eligible entry's step (date check armed, age under the cutoff):
no contribution of any kind. -/
theorem entry_step_not_eligible (config : Config) (e : FsTree)
    (hm : e.attrs.metaFails = false) (hc : e.attrs.createdFails = false)
    (hage : e.attrs.elapsed.getD 0 < config.since) :
    entry_step config false e
      = .next { errors_total := 0, removed_bytes := 0, removed_count := 0 } [] 1 := by
  cases e with
  | file name a =>
    simp only [FsTree.attrs] at hm hc hage
    simp only [entry_step, hm, hc, Bool.false_eq_true, if_false]
    rw [if_neg (by simp; omega)]
  | dir name a l =>
    simp only [FsTree.attrs] at hm hc hage
    simp only [entry_step, hm, hc, Bool.false_eq_true, if_false]
    rw [if_neg (by simp; omega)]

/-- Under `skip_date_check = true` a list of files on which every call
succeeds is removed wholesale, whatever the files' ages. -/
theorem entry_loop_intact_skip (config : Config) (hdry : config.dry_run = false) :
    ∀ es : EntryList, es.allP isIntactFile = true →
      entry_loop config true es
        = { res := some { errors_total := 0, removed_bytes := es.sizes,
                          removed_count := es.length }
            deleted := es.paths
            visited := es.length }
  | .nil, _ => by
    simp [EntryList.sizes, EntryList.length, EntryList.paths, entry_loop, Stats.new]
  | .cons e es, h => by
    have hsplit : isIntactFile e = true ∧ es.allP isIntactFile = true := by
      simpa [EntryList.allP] using h
    have ih := entry_loop_intact_skip config hdry es hsplit.2
    match e, hsplit.1 with
    | .file name a, he =>
      simp only [isIntactFile, Bool.and_eq_true, Bool.not_eq_true'] at he
      have hstep := entry_step_file_removed config true name a hdry
        he.1.1 he.1.2 he.2 (Or.inl rfl)
      rw [entry_loop_cons_next config true _ _ _ _ _ hstep, ih]
      simp [EntryList.sizes, EntryList.length, EntryList.paths, FsTree.attrs,
        FsTree.name, Stats.add]
      omega

/-! ### The claims -/

/-- C8: `Stats` merge (`Stats::add`) is field-wise addition of
`errors_total`, `removed_bytes` and `removed_count`, and `Stats` forms a
commutative monoid under it: `Stats::new` (all zeros) is a left and right
identity, and the merge is associative and commutative. -/
theorem c8_stats_monoid (a b c : Stats) :
    (Stats.add a b).errors_total = a.errors_total + b.errors_total
    ∧ (Stats.add a b).removed_bytes = a.removed_bytes + b.removed_bytes
    ∧ (Stats.add a b).removed_count = a.removed_count + b.removed_count
    ∧ Stats.add Stats.new a = a
    ∧ Stats.add a Stats.new = a
    ∧ Stats.add (Stats.add a b) c = Stats.add a (Stats.add b c)
    ∧ Stats.add a b = Stats.add b a := by
  refine ⟨rfl, rfl, rfl, Stats.add_new_left a, Stats.add_new_right a, ?_, ?_⟩ <;>
    simp [Stats.add] <;> omega

/-- C2 counterexample: a directory holding first an entry whose
`meta.created()` read fails and then a second, eligible, removable file.
The claim says the walker warns, skips the first entry and continues with
the second; the code instead propagates the failure with `?` (main.rs
line 168): the call returns `Err`, nothing is deleted, and the second
entry is never reached (one single entry was visited). -/
theorem c2_counterexample :
    remove_dir_contents { dry_run := false, since := 10 }
      (.ok (.cons
        (.file "bad" { metaFails := false, size := 1, createdFails := true,
                       elapsed := none, removeFails := false })
        (.cons
          (.file "good" { metaFails := false, size := 2, createdFails := false,
                          elapsed := some 20, removeFails := false })
          .nil))) false
      = { res := none, deleted := [], visited := 1 } := by
  rfl

/-- C2 amended: an entry whose creation time cannot be read from its
metadata (the `meta.created()?` of main.rs line 168) makes the current
`remove_dir_contents` call fail immediately: the call returns `Err`, the
entry is left on disk, and the remaining entries of the directory are not
processed.  (Only a creation time lying in the future — a failing
`elapsed()` — is handled non-fatally, by substituting a zero duration.) -/
theorem c2_amended_created_fail_is_fatal (config : Config) (skip : Bool)
    (e : FsTree) (rest : EntryList) (hm : e.attrs.metaFails = false)
    (hc : e.attrs.createdFails = true) :
    entry_loop config skip (.cons e rest)
      = { res := none, deleted := [], visited := 1 } := by
  have hstep : entry_step config skip e = .fatal [] 1 := by
    cases e with
    | file name a =>
      simp only [FsTree.attrs] at hm hc
      simp [entry_step, hm, hc]
    | dir name a l =>
      simp only [FsTree.attrs] at hm hc
      simp [entry_step, hm, hc]
  exact entry_loop_cons_fatal config skip e rest [] 1 hstep

/-- C2 amended, witnessed at a concrete input. -/
theorem c2_amended_witness :
    entry_loop { dry_run := false, since := 10 } false
      (.cons
        (.file "x" { metaFails := false, size := 5, createdFails := true,
                     elapsed := none, removeFails := false })
        (.cons
          (.file "y" { metaFails := false, size := 2, createdFails := false,
                       elapsed := some 20, removeFails := false })
          .nil))
      = { res := none, deleted := [], visited := 1 } :=
  c2_amended_created_fail_is_fatal { dry_run := false, since := 10 } false
    _ _ rfl rfl

/-- C3: when the recursive clean of an eligible subdirectory fails because
that subdirectory cannot be listed, the parent call counts exactly one
error, stops processing its remaining entries (`rest` contributes
nothing), and returns its accumulated `Stats` as a *success* value
(`some`); consequently — second conjunct — an ancestor directory `P`
holding that subdirectory merges the `Ok` stats and goes on to process
`P`'s following siblings (`sib`), so the failure aborts no ancestor
level. -/
theorem c3_subtree_fatal_is_contained (config : Config) (skip : Bool)
    (name pname : String) (a pa : Attrs) (rest sib : EntryList)
    (hm : a.metaFails = false) (hc : a.createdFails = false)
    (helig : skip = true ∨ config.since ≤ a.elapsed.getD 0)
    (hpm : pa.metaFails = false) (hpc : pa.createdFails = false)
    (hpelig : skip = true ∨ config.since ≤ pa.elapsed.getD 0)
    (hpr : pa.removeFails = false) (hdry : config.dry_run = false) :
    entry_loop config skip (.cons (.dir name a .fail) rest)
      = { res := some { errors_total := 1, removed_bytes := 0, removed_count := 0 }
          deleted := [], visited := 1 }
    ∧ entry_loop config skip
        (.cons (.dir pname pa (.ok (.cons (.dir name a .fail) rest))) sib)
      = { res := (entry_loop config skip sib).res.map
            (fun s => Stats.add
              { errors_total := 1, removed_bytes := pa.size, removed_count := 1 } s)
          deleted := [[pname]] ++ (entry_loop config skip sib).deleted
          visited := 2 + (entry_loop config skip sib).visited } := by
  have hinner : ∀ sk : Bool, (sk = true ∨ config.since ≤ a.elapsed.getD 0) →
      entry_loop config sk (.cons (.dir name a .fail) rest)
        = { res := some { errors_total := 1, removed_bytes := 0, removed_count := 0 }
            deleted := [], visited := 1 } := by
    intro sk he
    have hstep : entry_step config sk (.dir name a .fail)
        = .abort { errors_total := 1, removed_bytes := 0, removed_count := 0 } [] 1 := by
      have := entry_step_dir_err config sk name a .fail hm hc he rfl
      simpa [remove_dir_contents] using this
    exact entry_loop_cons_abort config sk _ rest _ [] 1 hstep
  refine ⟨hinner skip helig, ?_⟩
  have hsub : (remove_dir_contents config
      (.ok (.cons (.dir name a .fail) rest)) true).res
      = some { errors_total := 1, removed_bytes := 0, removed_count := 0 } := by
    simp [remove_dir_contents, hinner true (Or.inl rfl)]
  have hstepP := entry_step_dir_ok config skip pname pa
    (.ok (.cons (.dir name a .fail) rest)) _ hpm hpc hpelig hsub
  have hstepP2 : entry_step config skip
      (.dir pname pa (.ok (.cons (.dir name a .fail) rest)))
      = .next (Stats.add { errors_total := 1, removed_bytes := 0, removed_count := 0 }
            { errors_total := 0, removed_bytes := pa.size, removed_count := 1 })
          [[pname]] 2 := by
    rw [hstepP]
    simp [remove_entry, hdry, hpr, remove_dir_contents, hinner true (Or.inl rfl)]
  rw [entry_loop_cons_next config skip _ sib _ _ _ hstepP2]
  cases hres : (entry_loop config skip sib).res <;> simp [Stats.add, hres]

/-- C3, witnessed at a concrete input: one eligible but unlistable
subdirectory, one unprocessed entry behind it, an eligible parent and one
eligible sibling of the parent that is still removed. -/
theorem c3_witness :
    (entry_loop { dry_run := false, since := 10 } false
      (.cons (.dir "bad" { metaFails := false, size := 4, createdFails := false,
                           elapsed := some 20, removeFails := false } .fail)
        (.cons (.file "after" { metaFails := false, size := 8, createdFails := false,
                                elapsed := some 30, removeFails := false }) .nil))
      = { res := some { errors_total := 1, removed_bytes := 0, removed_count := 0 }
          deleted := [], visited := 1 })
    ∧ entry_loop { dry_run := false, since := 10 } false
        (.cons (.dir "P" { metaFails := false, size := 6, createdFails := false,
                           elapsed := some 40, removeFails := false }
          (.ok (.cons (.dir "bad" { metaFails := false, size := 4,
                                    createdFails := false, elapsed := some 20,
                                    removeFails := false } .fail)
            (.cons (.file "after" { metaFails := false, size := 8,
                                    createdFails := false, elapsed := some 30,
                                    removeFails := false }) .nil))))
          (.cons (.file "S" { metaFails := false, size := 9, createdFails := false,
                              elapsed := some 50, removeFails := false }) .nil))
      = { res := some { errors_total := 1, removed_bytes := 15, removed_count := 2 }
          deleted := [["P"], ["S"]], visited := 3 } := by
  have h := c3_subtree_fatal_is_contained { dry_run := false, since := 10 } false
    "bad" "P"
    { metaFails := false, size := 4, createdFails := false,
      elapsed := some 20, removeFails := false }
    { metaFails := false, size := 6, createdFails := false,
      elapsed := some 40, removeFails := false }
    (.cons (.file "after" { metaFails := false, size := 8, createdFails := false,
                            elapsed := some 30, removeFails := false }) .nil)
    (.cons (.file "S" { metaFails := false, size := 9, createdFails := false,
                        elapsed := some 50, removeFails := false }) .nil)
    rfl rfl (Or.inr (by decide)) rfl rfl (Or.inr (by decide)) rfl rfl
  exact ⟨h.1, h.2.trans (by rfl)⟩

/-- C6: for an eligible entry on which the remover is invoked — a file
(first conjunct) or a directory whose recursive clean returned `Ok`
(second conjunct) — success adds exactly the entry's size to
`removed_bytes` and one to `removed_count` with `errors_total` unchanged
(and the path leaves the disk unless dry-run); failure adds exactly one to
`errors_total` with the other two counters unchanged, and the entry stays
on disk (its path never appears among the deletions). -/
theorem c6_remover_outcome (config : Config) (skip : Bool) (name : String)
    (a : Attrs) (rest : EntryList) (hm : a.metaFails = false)
    (hc : a.createdFails = false)
    (helig : skip = true ∨ config.since ≤ a.elapsed.getD 0) :
    (entry_loop config skip (.cons (.file name a) rest)
      = if remove_entry config a.removeFails then
          { res := (entry_loop config skip rest).res.map
              (fun s => Stats.add { errors_total := 0, removed_bytes := a.size,
                                    removed_count := 1 } s)
            deleted := (if config.dry_run then [] else [[name]])
              ++ (entry_loop config skip rest).deleted
            visited := 1 + (entry_loop config skip rest).visited }
        else
          { res := (entry_loop config skip rest).res.map
              (fun s => Stats.add { errors_total := 1, removed_bytes := 0,
                                    removed_count := 0 } s)
            deleted := (entry_loop config skip rest).deleted
            visited := 1 + (entry_loop config skip rest).visited })
    ∧ ∀ (l : Listing) (subStats : Stats),
        (remove_dir_contents config l true).res = some subStats →
        entry_loop config skip (.cons (.dir name a l) rest)
          = if remove_entry config a.removeFails then
              { res := (entry_loop config skip rest).res.map
                  (fun s => Stats.add (Stats.add subStats
                    { errors_total := 0, removed_bytes := a.size,
                      removed_count := 1 }) s)
                deleted := ((remove_dir_contents config l true).deleted.map
                    (fun p => name :: p)
                    ++ if config.dry_run then [] else [[name]])
                  ++ (entry_loop config skip rest).deleted
                visited := ((remove_dir_contents config l true).visited + 1)
                  + (entry_loop config skip rest).visited }
            else
              { res := (entry_loop config skip rest).res.map
                  (fun s => Stats.add (Stats.add subStats
                    { errors_total := 1, removed_bytes := 0,
                      removed_count := 0 }) s)
                deleted := (remove_dir_contents config l true).deleted.map
                    (fun p => name :: p)
                  ++ (entry_loop config skip rest).deleted
                visited := ((remove_dir_contents config l true).visited + 1)
                  + (entry_loop config skip rest).visited } := by
  constructor
  · have hstep := entry_step_file_eligible config skip name a hm hc helig
    by_cases hrem : remove_entry config a.removeFails = true
    · rw [if_pos hrem] at hstep
      rw [entry_loop_cons_next config skip _ rest _ _ _ hstep, if_pos hrem]
    · rw [if_neg hrem] at hstep
      rw [entry_loop_cons_next config skip _ rest _ _ _ hstep, if_neg hrem]
      simp
  · intro l subStats hsub
    have hstep := entry_step_dir_ok config skip name a l subStats hm hc helig hsub
    by_cases hrem : remove_entry config a.removeFails = true
    · rw [if_pos hrem] at hstep
      rw [entry_loop_cons_next config skip _ rest _ _ _ hstep, if_pos hrem]
    · rw [if_neg hrem] at hstep
      rw [entry_loop_cons_next config skip _ rest _ _ _ hstep, if_neg hrem]

/-- C6, witnessed at a concrete input: a removable eligible file and an
eligible file whose removal fails, plus an eligible directory (with one
removable child) in both removal outcomes. -/
theorem c6_witness :
    (entry_loop { dry_run := false, since := 3 } false
      (.cons (.file "ok" { metaFails := false, size := 7, createdFails := false,
                           elapsed := some 5, removeFails := false }) .nil)
      = { res := some { errors_total := 0, removed_bytes := 7, removed_count := 1 }
          deleted := [["ok"]], visited := 1 })
    ∧ (entry_loop { dry_run := false, since := 3 } false
      (.cons (.file "locked" { metaFails := false, size := 7, createdFails := false,
                               elapsed := some 5, removeFails := true }) .nil)
      = { res := some { errors_total := 1, removed_bytes := 0, removed_count := 0 }
          deleted := [], visited := 1 })
    ∧ entry_loop { dry_run := false, since := 3 } false
      (.cons (.dir "d" { metaFails := false, size := 1, createdFails := false,
                         elapsed := some 5, removeFails := false }
        (.ok (.cons (.file "c" { metaFails := false, size := 2,
                                 createdFails := false, elapsed := some 0,
                                 removeFails := false }) .nil))) .nil)
      = { res := some { errors_total := 0, removed_bytes := 3, removed_count := 2 }
          deleted := [["d", "c"], ["d"]], visited := 2 } := by
  refine ⟨?_, ?_, ?_⟩
  · have h := (c6_remover_outcome { dry_run := false, since := 3 } false "ok"
      { metaFails := false, size := 7, createdFails := false,
        elapsed := some 5, removeFails := false } .nil rfl rfl
      (Or.inr (by decide))).1
    exact h.trans (by rfl)
  · have h := (c6_remover_outcome { dry_run := false, since := 3 } false "locked"
      { metaFails := false, size := 7, createdFails := false,
        elapsed := some 5, removeFails := true } .nil rfl rfl
      (Or.inr (by decide))).1
    exact h.trans (by rfl)
  · have h := (c6_remover_outcome { dry_run := false, since := 3 } false "d"
      { metaFails := false, size := 1, createdFails := false,
        elapsed := some 5, removeFails := false } .nil rfl rfl
      (Or.inr (by decide))).2
      (.ok (.cons (.file "c" { metaFails := false, size := 2,
                               createdFails := false, elapsed := some 0,
                               removeFails := false }) .nil))
      { errors_total := 0, removed_bytes := 2, removed_count := 1 } (by rfl)
    exact h.trans (by rfl)

/-- C7: an entry that is not eligible — date check armed
(`skip_date_check = false`) and elapsed-since-creation strictly under the
cutoff — is skipped entirely: not recursed into (the result does not
depend on its listing), not removed (no deletion recorded), and it
contributes nothing to `removed_count`, `removed_bytes` or `errors_total`;
the loop merely moves past it to the remaining entries. -/
theorem c7_not_eligible_skipped (config : Config) (e : FsTree)
    (rest : EntryList) (hm : e.attrs.metaFails = false)
    (hc : e.attrs.createdFails = false)
    (hage : e.attrs.elapsed.getD 0 < config.since) :
    entry_loop config false (.cons e rest)
      = { res := (entry_loop config false rest).res
          deleted := (entry_loop config false rest).deleted
          visited := 1 + (entry_loop config false rest).visited } := by
  rw [entry_loop_cons_next config false e rest _ _ _
    (entry_step_not_eligible config e hm hc hage)]
  simp [res_map_add_zero]

/-- C7, witnessed at a concrete input: a too-new directory (with a child
that would be removable) followed by an eligible file; only the file is
removed and the directory's subtree is never entered. -/
theorem c7_witness :
    entry_loop { dry_run := false, since := 24 } false
      (.cons (.dir "new" { metaFails := false, size := 4, createdFails := false,
                           elapsed := some 1, removeFails := false }
        (.ok (.cons (.file "inner" { metaFails := false, size := 10,
                                     createdFails := false, elapsed := some 100,
                                     removeFails := false }) .nil)))
        (.cons (.file "old" { metaFails := false, size := 100,
                              createdFails := false, elapsed := some 48,
                              removeFails := false }) .nil))
      = { res := some { errors_total := 0, removed_bytes := 100, removed_count := 1 }
          deleted := [["old"]], visited := 2 } := by
  have h := c7_not_eligible_skipped { dry_run := false, since := 24 }
    (.dir "new" { metaFails := false, size := 4, createdFails := false,
                  elapsed := some 1, removeFails := false }
      (.ok (.cons (.file "inner" { metaFails := false, size := 10,
                                   createdFails := false, elapsed := some 100,
                                   removeFails := false }) .nil)))
    (.cons (.file "old" { metaFails := false, size := 100, createdFails := false,
                          elapsed := some 48, removeFails := false }) .nil)
    rfl rfl (by decide)
  exact h.trans (by rfl)

/-- C10: for an entry whose creation timestamp is readable but lies in the
future (`elapsed()` fails), the walker substitutes a zero elapsed time
(main.rs lines 168-172); with the date check armed, under any strictly
positive cutoff the entry is skipped, while with no cutoff configured
(`since` stored as `0`, main.rs line 94) it is eligible and is removed. -/
theorem c10_future_timestamp (config : Config) (name : String) (a : Attrs)
    (rest : EntryList) (hm : a.metaFails = false) (hc : a.createdFails = false)
    (hfut : a.elapsed = none) (hdry : config.dry_run = false)
    (hr : a.removeFails = false) :
    (0 < config.since →
      entry_loop config false (.cons (.file name a) rest)
        = { res := (entry_loop config false rest).res
            deleted := (entry_loop config false rest).deleted
            visited := 1 + (entry_loop config false rest).visited })
    ∧ (config.since = 0 →
      entry_loop config false (.cons (.file name a) rest)
        = { res := (entry_loop config false rest).res.map
              (fun s => Stats.add { errors_total := 0, removed_bytes := a.size,
                                    removed_count := 1 } s)
            deleted := [name] :: (entry_loop config false rest).deleted
            visited := 1 + (entry_loop config false rest).visited }) := by
  constructor
  · intro hpos
    rw [entry_loop_cons_next config false _ rest _ _ _
      (entry_step_not_eligible config (.file name a) hm hc
        (by simp [FsTree.attrs, hfut]; omega))]
    simp [res_map_add_zero]
  · intro hzero
    have hstep := entry_step_file_removed config false name a hdry hm hc hr
      (Or.inr (by simp [hzero]))
    rw [entry_loop_cons_next config false _ rest _ _ _ hstep]
    simp

/-- C10, witnessed at concrete inputs: the same future-dated file is
skipped under cutoff `24` and removed under cutoff `0`. -/
theorem c10_witness :
    (entry_loop { dry_run := false, since := 24 } false
      (.cons (.file "future" { metaFails := false, size := 9,
                               createdFails := false, elapsed := none,
                               removeFails := false }) .nil)
      = { res := some { errors_total := 0, removed_bytes := 0, removed_count := 0 }
          deleted := [], visited := 1 })
    ∧ entry_loop { dry_run := false, since := 0 } false
      (.cons (.file "future" { metaFails := false, size := 9,
                               createdFails := false, elapsed := none,
                               removeFails := false }) .nil)
      = { res := some { errors_total := 0, removed_bytes := 9, removed_count := 1 }
          deleted := [["future"]], visited := 1 } := by
  constructor
  · have h := (c10_future_timestamp { dry_run := false, since := 24 } "future"
      { metaFails := false, size := 9, createdFails := false, elapsed := none,
        removeFails := false } .nil rfl rfl rfl rfl rfl).1 (by decide)
    exact h.trans (by rfl)
  · have h := (c10_future_timestamp { dry_run := false, since := 0 } "future"
      { metaFails := false, size := 9, createdFails := false, elapsed := none,
        removeFails := false } .nil rfl rfl rfl rfl rfl).2 rfl
    exact h.trans (by rfl)

/-- C1: an eligible directory entry is recursed into with
`skip_date_check = true`, so every file inside it on which the filesystem
calls succeed is removed regardless of its own creation time (`children`
carries no age constraint at all): the whole subtree plus the directory
itself is removed and counted. In particular, for a directory `D` older
than the cutoff containing a single file `F` newer than the cutoff, both
`D` and `F` are removed. -/
theorem c1_eligibility_cascades (config : Config) (dn : String) (da : Attrs)
    (children : EntryList) (hdry : config.dry_run = false)
    (hm : da.metaFails = false) (hc : da.createdFails = false)
    (hr : da.removeFails = false)
    (helig : config.since ≤ da.elapsed.getD 0)
    (hkids : children.allP isIntactFile = true) :
    entry_loop config false (.cons (.dir dn da (.ok children)) .nil)
      = { res := some { errors_total := 0
                        removed_bytes := children.sizes + da.size
                        removed_count := children.length + 1 }
          deleted := children.paths.map (fun p => dn :: p) ++ [[dn]]
          visited := children.length + 1 } := by
  have hinner := entry_loop_intact_skip config hdry children hkids
  have hsub : (remove_dir_contents config (.ok children) true).res
      = some { errors_total := 0, removed_bytes := children.sizes,
               removed_count := children.length } := by
    simp [remove_dir_contents, hinner]
  have hstep := entry_step_dir_ok config false dn da (.ok children) _ hm hc
    (Or.inr helig) hsub
  have hstep2 : entry_step config false (.dir dn da (.ok children))
      = .next { errors_total := 0, removed_bytes := children.sizes + da.size,
                removed_count := children.length + 1 }
          (children.paths.map (fun p => dn :: p) ++ [[dn]])
          (children.length + 1) := by
    rw [hstep]
    simp [remove_entry, hdry, hr, remove_dir_contents, hinner, Stats.add]
  rw [entry_loop_cons_next config false _ .nil _ _ _ hstep2]
  simp [entry_loop, Stats.add_new_right]

/-- C1, witnessed at the spec's concrete scenario restricted to the `D`/`F`
pair: cutoff `24`, `D` created `72` ago (size `0`) holding `F` created `0`
ago (size `10`, newer than the cutoff): both are removed, `10` bytes and
two entries counted, no errors. -/
theorem c1_witness :
    entry_loop { dry_run := false, since := 24 } false
      (.cons (.dir "D" { metaFails := false, size := 0, createdFails := false,
                         elapsed := some 72, removeFails := false }
        (.ok (.cons (.file "F" { metaFails := false, size := 10,
                                 createdFails := false, elapsed := some 0,
                                 removeFails := false }) .nil))) .nil)
      = { res := some { errors_total := 0, removed_bytes := 10, removed_count := 2 }
          deleted := [["D", "F"], ["D"]], visited := 2 } := by
  have h := c1_eligibility_cascades { dry_run := false, since := 24 } "D"
    { metaFails := false, size := 0, createdFails := false,
      elapsed := some 72, removeFails := false }
    (.cons (.file "F" { metaFails := false, size := 10, createdFails := false,
                        elapsed := some 0, removeFails := false }) .nil)
    rfl rfl rfl rfl (by decide) rfl
  exact h.trans (by rfl)

/-- Appending the empty entry list changes nothing. -/
theorem EntryList.append_nil : ∀ l : EntryList, l.append .nil = l
  | .nil => rfl
  | .cons e rest => by rw [EntryList.append, EntryList.append_nil rest]

/-- C5: a failed metadata read is isolated to its entry: among `N`
siblings, if the metadata read fails for exactly one (`bad`, anywhere in
the list) and the other `N − 1` are eligible removable files, the run ends
with `errors_total = 1`, the other `N − 1` entries removed and their bytes
counted; the failed entry is left on disk (it appears in no deletion), and
the loop continued past it to the entries behind it. -/
theorem c5_metadata_fault_isolation (config : Config) (pre post : EntryList)
    (bad : FsTree) (hdry : config.dry_run = false)
    (hb : bad.attrs.metaFails = true)
    (hpre : pre.allP (isHealthyFile config) = true)
    (hpost : post.allP (isHealthyFile config) = true) :
    entry_loop config false (pre.append (.cons bad post))
      = { res := some { errors_total := 1
                        removed_bytes := pre.sizes + post.sizes
                        removed_count := pre.length + post.length }
          deleted := pre.paths ++ post.paths
          visited := pre.length + (1 + post.length) } := by
  have hpost2 := entry_loop_healthy_append config false hdry post .nil hpost
  rw [EntryList.append_nil] at hpost2
  have hpostv : entry_loop config false post
      = { res := some { errors_total := 0, removed_bytes := post.sizes,
                        removed_count := post.length }
          deleted := post.paths, visited := post.length } := by
    rw [hpost2]
    simp [entry_loop, Stats.add_new_right]
  have hmid : entry_loop config false (.cons bad post)
      = { res := some { errors_total := 1, removed_bytes := post.sizes,
                        removed_count := post.length }
          deleted := post.paths, visited := 1 + post.length } := by
    rw [entry_loop_cons_next config false bad post _ _ _
      (entry_step_metaFails config false bad hb), hpostv]
    simp [Stats.add]
  rw [entry_loop_healthy_append config false hdry pre (.cons bad post) hpre, hmid]
  simp [Stats.add]

/-- C5, witnessed at a concrete input: three siblings, the middle one with
an unreadable metadata; one error, the two others removed. -/
theorem c5_witness :
    entry_loop { dry_run := false, since := 5 } false
      ((EntryList.cons
          (.file "a" { metaFails := false, size := 3, createdFails := false,
                       elapsed := some 9, removeFails := false })
        .nil).append
        (.cons
          (.file "bad" { metaFails := true, size := 100, createdFails := false,
                         elapsed := some 9, removeFails := false })
          (.cons
            (.file "b" { metaFails := false, size := 4, createdFails := false,
                         elapsed := some 7, removeFails := false })
            .nil)))
      = { res := some { errors_total := 1, removed_bytes := 7, removed_count := 2 }
          deleted := [["a"], ["b"]], visited := 3 } := by
  have h := c5_metadata_fault_isolation { dry_run := false, since := 5 }
    (.cons (.file "a" { metaFails := false, size := 3, createdFails := false,
                        elapsed := some 9, removeFails := false }) .nil)
    (.cons (.file "b" { metaFails := false, size := 4, createdFails := false,
                        elapsed := some 7, removeFails := false }) .nil)
    (.file "bad" { metaFails := true, size := 100, createdFails := false,
                   elapsed := some 9, removeFails := false })
    rfl rfl (by decide) (by decide)
  exact h.trans (by rfl)

mutual
/-- Each loop step contributes at most one removal per entry it visits. -/
theorem entry_step_countBound (config : Config) (skip : Bool) :
    ∀ e : FsTree, (entry_step config skip e).countBound
  | .file name a => by
    simp only [entry_step]
    split_ifs <;> simp [StepRes.countBound]
  | .dir name a l => by
    by_cases h1 : a.metaFails = true
    · simp [entry_step, h1, StepRes.countBound]
    · by_cases h2 : a.createdFails = true
      · simp [entry_step, h1, h2, StepRes.countBound]
      · by_cases h3 : skip = true ∨ config.since ≤ a.elapsed.getD 0
        · cases hsub : (remove_dir_contents config l true).res with
          | none => simp [entry_step, h1, h2, h3, hsub, StepRes.countBound]
          | some subStats =>
            have hb := remove_dir_contents_countBound config true l subStats hsub
            by_cases h4 : remove_entry config a.removeFails = true
            · simp only [entry_step, h1, h2, h3, hsub, h4, Bool.false_eq_true,
                if_false, iff_true, if_true, StepRes.countBound, Stats.add]
              omega
            · simp only [entry_step, h1, h2, hsub, Bool.false_eq_true, if_false]
              rw [if_pos h3, if_neg h4]
              simp [StepRes.countBound, Stats.add]
              omega
        · simp only [entry_step, h1, h2, Bool.false_eq_true, if_false]
          rw [if_neg h3]
          simp [StepRes.countBound]

/-- The stats an `Ok` call returns count at most one removal per visited
entry. -/
theorem remove_dir_contents_countBound (config : Config) (skip : Bool) :
    ∀ (l : Listing) (s : Stats),
      (remove_dir_contents config l skip).res = some s →
      s.removed_count ≤ (remove_dir_contents config l skip).visited
  | .fail, s, h => by simp [remove_dir_contents] at h
  | .ok es, s, h => by
    have := entry_loop_countBound config skip es s
      (by simpa [remove_dir_contents] using h)
    simpa [remove_dir_contents] using this

/-- The loop's accumulated stats count at most one removal per visited
entry. -/
theorem entry_loop_countBound (config : Config) (skip : Bool) :
    ∀ (es : EntryList) (s : Stats),
      (entry_loop config skip es).res = some s →
      s.removed_count ≤ (entry_loop config skip es).visited
  | .nil, s, h => by
    simp only [entry_loop, Option.some.injEq] at h
    subst h
    exact Nat.le_refl _
  | .cons e rest, s, h => by
    have hstep := entry_step_countBound config skip e
    cases hs : entry_step config skip e with
    | fatal d v =>
      rw [entry_loop_cons_fatal config skip e rest d v hs] at h
      simp at h
    | abort s' d v =>
      rw [entry_loop_cons_abort config skip e rest s' d v hs] at h
      rw [entry_loop_cons_abort config skip e rest s' d v hs]
      simp only [Option.some.injEq] at h
      subst h
      rw [hs] at hstep
      simpa [StepRes.countBound] using hstep
    | next c d v =>
      rw [entry_loop_cons_next config skip e rest c d v hs] at h
      rw [entry_loop_cons_next config skip e rest c d v hs]
      simp only [Option.map_eq_some'] at h
      obtain ⟨rs, hrs, hadd⟩ := h
      subst hadd
      have hr := entry_loop_countBound config skip rest rs hrs
      rw [hs] at hstep
      simp only [StepRes.countBound] at hstep
      simp only [Stats.add]
      omega
end

/-- C9: the `Stats` a walker call returns satisfies
`removed_count ≤ visited`: each visited entry contributes at most one to
`removed_count`, and unvisited entries contribute nothing. -/
theorem c9_removed_count_le_visited (config : Config) (listing : Listing)
    (skip : Bool) (s : Stats)
    (h : (remove_dir_contents config listing skip).res = some s) :
    s.removed_count ≤ (remove_dir_contents config listing skip).visited :=
  remove_dir_contents_countBound config skip listing s h

/-- C9, witnessed on a concrete tree (two entries removed, two visited). -/
theorem c9_witness :
    ({ errors_total := 0, removed_bytes := 10, removed_count := 2 } : Stats).removed_count
      ≤ (remove_dir_contents { dry_run := false, since := 24 }
          (.ok (.cons
            (.dir "D" { metaFails := false, size := 0, createdFails := false,
                        elapsed := some 72, removeFails := false }
              (.ok (.cons
                (.file "F" { metaFails := false, size := 10, createdFails := false,
                             elapsed := some 0, removeFails := false })
                .nil)))
            .nil)) false).visited :=
  c9_removed_count_le_visited { dry_run := false, since := 24 }
    (.ok (.cons
      (.dir "D" { metaFails := false, size := 0, createdFails := false,
                  elapsed := some 72, removeFails := false }
        (.ok (.cons
          (.file "F" { metaFails := false, size := 10, createdFails := false,
                       elapsed := some 0, removeFails := false })
          .nil)))
      .nil)) false
    { errors_total := 0, removed_bytes := 10, removed_count := 2 } rfl

mutual
/-- Under dry-run a step contributes the same stats and visit count as the
real run would — provided no removal the real run attempts fails — and
deletes nothing. -/
theorem entry_step_dry (since : Nat) (skip : Bool) :
    ∀ e : FsTree, FsTree.allRemoveOk e = true →
      entry_step { dry_run := true, since := since } skip e
        = (entry_step { dry_run := false, since := since } skip e).eraseDeleted
  | .file name a, h => by
    simp only [FsTree.allRemoveOk, Bool.not_eq_true'] at h
    by_cases h1 : a.metaFails = true
    · simp [entry_step, h1, StepRes.eraseDeleted]
    · by_cases h2 : a.createdFails = true
      · simp [entry_step, h1, h2, StepRes.eraseDeleted]
      · by_cases h3 : skip = true ∨ (since : Nat) ≤ a.elapsed.getD 0
        · simp [entry_step, h1, h2, h3, remove_entry, h, StepRes.eraseDeleted]
        · simp [entry_step, h1, h2, h3, StepRes.eraseDeleted]
  | .dir name a l, h => by
    simp only [FsTree.allRemoveOk, Bool.and_eq_true, Bool.not_eq_true'] at h
    have hl := remove_dir_contents_dry since true l h.2
    by_cases h1 : a.metaFails = true
    · simp [entry_step, h1, StepRes.eraseDeleted]
    · by_cases h2 : a.createdFails = true
      · simp [entry_step, h1, h2, StepRes.eraseDeleted]
      · by_cases h3 : skip = true ∨ (since : Nat) ≤ a.elapsed.getD 0
        · cases hsub : (remove_dir_contents { dry_run := false, since := since }
              l true).res with
          | none =>
            simp [entry_step, h1, h2, h3, hl, RunResult.eraseDeleted, hsub,
              StepRes.eraseDeleted]
          | some subStats =>
            simp [entry_step, h1, h2, h3, hl, RunResult.eraseDeleted, hsub,
              remove_entry, h.1, StepRes.eraseDeleted]
        · simp [entry_step, h1, h2, h3, StepRes.eraseDeleted]

/-- Under dry-run a call returns the same `Result<Stats>` and visit count
as the real run would — provided no removal fails — and deletes nothing. -/
theorem remove_dir_contents_dry (since : Nat) (skip : Bool) :
    ∀ l : Listing, Listing.allRemoveOk l = true →
      remove_dir_contents { dry_run := true, since := since } l skip
        = (remove_dir_contents { dry_run := false, since := since } l skip).eraseDeleted
  | .fail, _ => by simp [remove_dir_contents, RunResult.eraseDeleted]
  | .ok es, h => by
    have := entry_loop_dry since skip es (by simpa [Listing.allRemoveOk] using h)
    simpa [remove_dir_contents] using this

/-- Under dry-run the loop accumulates the same stats and visit count as
the real run would — provided no removal fails — and deletes nothing. -/
theorem entry_loop_dry (since : Nat) (skip : Bool) :
    ∀ es : EntryList, EntryList.allRemoveOk es = true →
      entry_loop { dry_run := true, since := since } skip es
        = (entry_loop { dry_run := false, since := since } skip es).eraseDeleted
  | .nil, _ => by simp [entry_loop, RunResult.eraseDeleted]
  | .cons e rest, h => by
    simp only [EntryList.allRemoveOk, Bool.and_eq_true] at h
    have hstep := entry_step_dry since skip e h.1
    have hrest := entry_loop_dry since skip rest h.2
    cases hs : entry_step { dry_run := false, since := since } skip e with
    | fatal d v =>
      rw [hs, StepRes.eraseDeleted] at hstep
      rw [entry_loop_cons_fatal _ _ _ _ _ _ hstep,
        entry_loop_cons_fatal _ _ _ _ _ _ hs]
      simp [RunResult.eraseDeleted]
    | abort s' d v =>
      rw [hs, StepRes.eraseDeleted] at hstep
      rw [entry_loop_cons_abort _ _ _ _ _ _ _ hstep,
        entry_loop_cons_abort _ _ _ _ _ _ _ hs]
      simp [RunResult.eraseDeleted]
    | next c d v =>
      rw [hs, StepRes.eraseDeleted] at hstep
      rw [entry_loop_cons_next _ _ _ _ _ _ _ hstep,
        entry_loop_cons_next _ _ _ _ _ _ _ hs, hrest]
      simp [RunResult.eraseDeleted]
end

/-- C4 counterexample: the claim says a dry run produces exactly the same
`Stats` as a real run on every tree. It fails on a tree with one eligible
file whose removal fails: the real run records one error and removes
nothing, the dry run — whose remover always succeeds — counts the file as
removed. -/
theorem c4_counterexample :
    ¬ (remove_dir_contents { dry_run := true, since := 0 }
        (.ok (.cons (.file "locked" { metaFails := false, size := 5,
                                      createdFails := false, elapsed := some 0,
                                      removeFails := true }) .nil)) false).res
      = (remove_dir_contents { dry_run := false, since := 0 }
        (.ok (.cons (.file "locked" { metaFails := false, size := 5,
                                      createdFails := false, elapsed := some 0,
                                      removeFails := true }) .nil)) false).res := by
  decide

/-- C4 amended: provided every removal the real run attempts succeeds
(no entry of the tree has a failing removal), a dry run returns exactly
the same `Result<Stats>` value (and visits the same entries) as the real
run, while deleting nothing from disk; and under `dry_run = true` the
remover `remove_entry` returns success on every entry. -/
theorem c4_dry_run_purity (since : Nat) (listing : Listing)
    (h : Listing.allRemoveOk listing = true) :
    (remove_dir_contents { dry_run := true, since := since } listing false).res
      = (remove_dir_contents { dry_run := false, since := since } listing false).res
    ∧ (remove_dir_contents { dry_run := true, since := since } listing false).visited
      = (remove_dir_contents { dry_run := false, since := since } listing false).visited
    ∧ (remove_dir_contents { dry_run := true, since := since } listing false).deleted = []
    ∧ ∀ (config : Config) (removeFails : Bool), config.dry_run = true →
        remove_entry config removeFails = true := by
  have hd := remove_dir_contents_dry since false listing h
  refine ⟨?_, ?_, ?_, ?_⟩
  · rw [hd]; rfl
  · rw [hd]; rfl
  · rw [hd]; rfl
  · intro config removeFails hdry
    simp [remove_entry, hdry]

/-- C4 amended, witnessed on a concrete tree (an old file, a new file and
an old directory holding a new file): dry and real runs return the same
stats, and the dry run deletes nothing. -/
theorem c4_witness :
    (remove_dir_contents { dry_run := true, since := 24 }
      (.ok (.cons
        (.file "old" { metaFails := false, size := 100, createdFails := false,
                       elapsed := some 48, removeFails := false })
        (.cons
          (.file "new" { metaFails := false, size := 50, createdFails := false,
                         elapsed := some 1, removeFails := false })
          (.cons
            (.dir "old_dir" { metaFails := false, size := 0, createdFails := false,
                              elapsed := some 72, removeFails := false }
              (.ok (.cons
                (.file "inner" { metaFails := false, size := 10,
                                 createdFails := false, elapsed := some 0,
                                 removeFails := false })
                .nil)))
            .nil)))) false).res
      = (remove_dir_contents { dry_run := false, since := 24 }
        (.ok (.cons
          (.file "old" { metaFails := false, size := 100, createdFails := false,
                         elapsed := some 48, removeFails := false })
          (.cons
            (.file "new" { metaFails := false, size := 50, createdFails := false,
                           elapsed := some 1, removeFails := false })
            (.cons
              (.dir "old_dir" { metaFails := false, size := 0, createdFails := false,
                                elapsed := some 72, removeFails := false }
                (.ok (.cons
                  (.file "inner" { metaFails := false, size := 10,
                                   createdFails := false, elapsed := some 0,
                                   removeFails := false })
                  .nil)))
              .nil)))) false).res
    ∧ (remove_dir_contents { dry_run := true, since := 24 }
      (.ok (.cons
        (.file "old" { metaFails := false, size := 100, createdFails := false,
                       elapsed := some 48, removeFails := false })
        (.cons
          (.file "new" { metaFails := false, size := 50, createdFails := false,
                         elapsed := some 1, removeFails := false })
          (.cons
            (.dir "old_dir" { metaFails := false, size := 0, createdFails := false,
                              elapsed := some 72, removeFails := false }
              (.ok (.cons
                (.file "inner" { metaFails := false, size := 10,
                                 createdFails := false, elapsed := some 0,
                                 removeFails := false })
                .nil)))
            .nil)))) false).deleted = [] := by
  have h := c4_dry_run_purity 24
    (.ok (.cons
      (.file "old" { metaFails := false, size := 100, createdFails := false,
                     elapsed := some 48, removeFails := false })
      (.cons
        (.file "new" { metaFails := false, size := 50, createdFails := false,
                       elapsed := some 1, removeFails := false })
        (.cons
          (.dir "old_dir" { metaFails := false, size := 0, createdFails := false,
                            elapsed := some 72, removeFails := false }
            (.ok (.cons
              (.file "inner" { metaFails := false, size := 10,
                               createdFails := false, elapsed := some 0,
                               removeFails := false })
              .nil)))
          .nil)))) (by decide)
  exact ⟨h.1, h.2.2.1⟩

end WinTempClean
